import Mathlib

/-!
# Verification of the sales-tracker store and HTTP layer

Shallow embedding of the `L3_6` personal-finance service:
* `models.Sale` / `models.AnalyticsResponse` (models package),
* the storage layer `CreateSale` / `GetSales` / `UpdateSale` / `DeleteSale` /
  `GetAnalytics` (internal/storage), whose behaviour is the semantics of the
  parameterized SQL statements they issue against the `sales` table created by
  the migration (SERIAL id, CHECK constraints, `ORDER BY date DESC`,
  `PERCENTILE_CONT`, `COALESCE`),
* the gin HTTP handlers `createSale` / `updateSale` / `getAnalytics`
  (internal/server/server.go), with the JSON binding and RFC3339 parsing of
  the Go libraries represented as parameters (`Option`-valued results).

Timestamps (`TIMESTAMPTZ`, Go `time.Time`) are modelled as integers: only
their total order matters to the embedded operations.  Monetary amounts are
modelled as rationals; the `DECIMAL(10,2)` column stores values rounded to
two decimal places (PostgreSQL `numeric` rounds half away from zero, which
for the positive amounts admitted by the CHECK constraint is "half up").
-/

namespace SalesTracker

/-- `TIMESTAMPTZ` / Go `time.Time`: only the total order is observable. -/
abbrev Timestamp := Int

/-- `models.Sale` (models package): id, type, amount, date, category. -/
structure Sale where
  id : Int
  type : String
  amount : ℚ
  date : Timestamp
  category : String
deriving Repr, DecidableEq

/-- `models.AnalyticsResponse`: sum, average, count, median, percentile90. -/
structure AnalyticsResponse where
  sum : ℚ
  average : ℚ
  count : Int
  median : ℚ
  percentile90 : ℚ
deriving Repr, DecidableEq

/-- The persistent `sales` table plus the `SERIAL` sequence backing `id`.
PostgreSQL sequences only move forward, so `nextId` is never reused. -/
structure SalesTable where
  nextId : Int
  rows : List Sale
deriving Repr, DecidableEq

/-- Rounding to the scale of `DECIMAL(10,2)`: half away from zero, which for
nonnegative values is `⌊q * 100 + 1/2⌋ / 100`. -/
def round2 (q : ℚ) : ℚ := (⌊q * 100 + 1/2⌋ : ℚ) / 100

/-- The migration's column constraints on a row to be written:
`type VARCHAR(10) CHECK (type IN ('income','expense'))`,
`amount DECIMAL(10,2) CHECK (amount > 0)` (so at most `99999999.99`),
`category VARCHAR(255) NOT NULL` (Go strings are never NULL). -/
def checkConstraints (ty : String) (a : ℚ) (cat : String) : Bool :=
  ty.length ≤ 10 && (ty = "income" || ty = "expense") &&
    decide (0 < a) && decide (a ≤ 99999999.99) && cat.length ≤ 255

/-- `storage.CreateSale`: `INSERT INTO sales (type, amount, date, category)
VALUES ($1,$2,$3,$4) RETURNING id`.  A constraint violation surfaces as an
error wrapped with the operation tag; on success the generated id is scanned
back into the sale. -/
def CreateSale (st : SalesTable) (s : Sale) : Except String (SalesTable × Sale) :=
  let a := round2 s.amount
  if checkConstraints s.type a s.category then
    let stored : Sale := ⟨st.nextId, s.type, a, s.date, s.category⟩
    .ok ({ nextId := st.nextId + 1, rows := st.rows ++ [stored] }, stored)
  else
    .error "storage.CreateSale: constraint violation"

/-- `ORDER BY date DESC` as a relation on rows. -/
def dateDesc (a b : Sale) : Prop := b.date ≤ a.date

instance : DecidableRel dateDesc := fun a b => inferInstanceAs (Decidable (b.date ≤ a.date))

instance : IsTotal Sale dateDesc := ⟨fun a b => le_total b.date a.date⟩

instance : IsTrans Sale dateDesc := ⟨fun _ _ _ h h' => le_trans h' h⟩

/-- `storage.GetSales`: `SELECT id, type, amount, date, category FROM sales
ORDER BY date DESC`.  The scan of the result set never fails on rows the
schema admits, so the operation is total; an empty table gives `[]`. -/
def GetSales (st : SalesTable) : List Sale :=
  st.rows.insertionSort dateDesc

/-- `storage.UpdateSale`: `UPDATE sales SET type=$1, amount=$2, date=$3,
category=$4 WHERE id=$5`.  Column constraints are only evaluated on rows the
`WHERE` clause matches; zero matched rows is a successful no-op. -/
def UpdateSale (st : SalesTable) (s : Sale) : Except String SalesTable :=
  let a := round2 s.amount
  if st.rows.any (fun r => r.id = s.id) && !checkConstraints s.type a s.category then
    .error "storage.UpdateSale: constraint violation"
  else
    .ok { st with
          rows := st.rows.map (fun r =>
            if r.id = s.id then ⟨r.id, s.type, a, s.date, s.category⟩ else r) }

/-- `storage.DeleteSale`: `DELETE FROM sales WHERE id=$1`.  Zero matched rows
is a successful no-op. -/
def DeleteSale (st : SalesTable) (i : Int) : Except String SalesTable :=
  .ok { st with rows := st.rows.filter (fun r => r.id ≠ i) }

/-- SQL `SUM(amount)`: `NULL` over the empty group. -/
def sqlSum (l : List ℚ) : Option ℚ :=
  match l with
  | [] => none
  | _ => some l.sum

/-- SQL `AVG(amount)`: `NULL` over the empty group. -/
def sqlAvg (l : List ℚ) : Option ℚ :=
  match l with
  | [] => none
  | _ => some (l.sum / l.length)

/-- SQL `COALESCE(x, 0)`. -/
def coalesce0 (o : Option ℚ) : ℚ := o.getD 0

/-- `PERCENTILE_CONT(p) WITHIN GROUP (ORDER BY amount)`: over the sorted
group `v_0 ≤ … ≤ v_{N-1}` the result sits at row number `p * (N-1)`; with
`lo = ⌊p*(N-1)⌋` and `hi = ⌈p*(N-1)⌉` it is `v_lo` when the position is
integral and otherwise `(hi - rn) * v_lo + (rn - lo) * v_hi`.  The empty
group yields `NULL`. -/
def percentileCont (p : ℚ) (l : List ℚ) : Option ℚ :=
  match l with
  | [] => none
  | _ =>
    let s := l.insertionSort (· ≤ ·)
    let rn : ℚ := p * ((l.length : ℚ) - 1)
    let lo := (⌊rn⌋).toNat
    let hi := (⌈rn⌉).toNat
    if lo = hi then some (s.getD lo 0)
    else some (((hi : ℚ) - rn) * s.getD lo 0 + (rn - (lo : ℚ)) * s.getD hi 0)

/-- `date BETWEEN $1 AND $2` is inclusive on both ends. -/
def matchingAmounts (st : SalesTable) (fromTs toTs : Timestamp) : List ℚ :=
  (st.rows.filter (fun r => fromTs ≤ r.date && r.date ≤ toTs)).map Sale.amount

/-- `storage.GetAnalytics`: the aggregate query
`SELECT COALESCE(SUM(amount),0), COALESCE(AVG(amount),0), COUNT(*),
PERCENTILE_CONT(0.5) …, PERCENTILE_CONT(0.9) … FROM sales WHERE date BETWEEN
$1 AND $2`, scanned into `AnalyticsResponse`.  The two percentile columns
carry no `COALESCE`, and pgx cannot scan a SQL `NULL` into a Go `float64`,
so a `NULL` percentile makes the scan — and hence the operation — fail. -/
def GetAnalytics (st : SalesTable) (fromTs toTs : Timestamp) :
    Except String AnalyticsResponse :=
  let amounts := matchingAmounts st fromTs toTs
  match percentileCont (1/2) amounts, percentileCont (9/10) amounts with
  | some m, some p90 =>
      .ok ⟨coalesce0 (sqlSum amounts), coalesce0 (sqlAvg amounts),
           amounts.length, m, p90⟩
  | _, _ => .error "storage.GetAnalytics: cannot scan NULL into float64"

/-! ## HTTP layer (internal/server/server.go)

The gin handlers are embedded as functions from the parsed ingredients of a
request to a response, the table state after the request, and the list of
store operations the handler performed (in order).  Two library behaviours
appear as parameters of the embedding:

* `c.ShouldBindJSON(&sale)` is an `Option Sale` argument: `none` when the
  JSON decoder rejects the body (malformed JSON, a field of the wrong type,
  or a `date` string Go's `time.Time` unmarshaller cannot parse), and
  `some sale` with the decoded field values otherwise.  `models.Sale`
  declares its rules under the `validate:` struct tag, while gin's binding
  validator reads the `binding:` tag only and nothing in the repository ever
  invokes a validator on the `validate:` tags, so binding performs no value
  validation: any well-typed JSON body decodes to `some sale`.
* `time.Parse(time.RFC3339, s)` is a parameter
  `parse : String → Option Timestamp`; a missing query parameter reaches it
  as the empty string, which is not a valid RFC3339 timestamp. -/

/-- One store operation observed by a handler run. -/
inductive StoreCall where
  | create (s : Sale)
  | update (s : Sale)
  | delete (i : Int)
  | analytics (fromTs toTs : Timestamp)
deriving Repr, DecidableEq

/-- The JSON response a handler writes: its HTTP status plus the payload
(`c.JSON` of a sale, of an analytics summary, or of an error object, the
error text being contractually irrelevant). -/
structure HttpResponse where
  status : Nat
  sale : Option Sale := none
  analytics : Option AnalyticsResponse := none
deriving Repr, DecidableEq

/-- `strconv.Atoi`: an optional sign followed by at least one decimal digit.
(Values beyond 64 bits overflow in Go; no embedded scenario reaches them.) -/
def digitsToNat (cs : List Char) : Nat :=
  cs.foldl (fun acc c => acc * 10 + (c.toNat - 48)) 0

def atoi (s : String) : Option Int :=
  let p : Bool × List Char :=
    match s.data with
    | '-' :: rest => (true, rest)
    | '+' :: rest => (false, rest)
    | rest => (false, rest)
  if p.2.isEmpty then none
  else if p.2.all Char.isDigit then
    some (if p.1 then -(digitsToNat p.2 : Int) else (digitsToNat p.2 : Int))
  else none

/-- Handler `createSale`: bind the body (400 on failure), call
`storage.CreateSale` (500 on failure), else 201 with the stored sale. -/
def createSaleHandler (st : SalesTable) (body : Option Sale) :
    HttpResponse × SalesTable × List StoreCall :=
  match body with
  | none => (⟨400, none, none⟩, st, [])
  | some sale =>
    match CreateSale st sale with
    | .error _ => (⟨500, none, none⟩, st, [.create sale])
    | .ok (st', stored) => (⟨201, some stored, none⟩, st', [.create stored])

/-- Handler `updateSale`: parse `{id}` with `strconv.Atoi` (400 on failure),
bind the body (400 on failure), overwrite `sale.ID` with the path id, call
`storage.UpdateSale` (500 on failure), else 200 echoing the in-memory sale. -/
def updateSaleHandler (st : SalesTable) (idParam : String) (body : Option Sale) :
    HttpResponse × SalesTable × List StoreCall :=
  match atoi idParam with
  | none => (⟨400, none, none⟩, st, [])
  | some i =>
    match body with
    | none => (⟨400, none, none⟩, st, [])
    | some sale =>
      let sale' : Sale := { sale with id := i }
      match UpdateSale st sale' with
      | .error _ => (⟨500, none, none⟩, st, [.update sale'])
      | .ok st' => (⟨200, some sale', none⟩, st', [.update sale'])

/-- Handler `deleteSale`: parse `{id}` (400 on failure), call
`storage.DeleteSale` (500 on failure), else 204 with an empty body. -/
def deleteSaleHandler (st : SalesTable) (idParam : String) :
    HttpResponse × SalesTable × List StoreCall :=
  match atoi idParam with
  | none => (⟨400, none, none⟩, st, [])
  | some i =>
    match DeleteSale st i with
    | .error _ => (⟨500, none, none⟩, st, [.delete i])
    | .ok st' => (⟨204, none, none⟩, st', [.delete i])

/-- Handler `getAnalytics`: parse `from` then `to` with
`time.Parse(time.RFC3339, ·)` (400 on either failure), call
`storage.GetAnalytics` with the two parsed timestamps (500 on failure),
else 200 with the summary.  `parse` stands for the RFC3339 parser. -/
def getAnalyticsHandler (parse : String → Option Timestamp) (st : SalesTable)
    (fromStr toStr : String) : HttpResponse × SalesTable × List StoreCall :=
  match parse fromStr with
  | none => (⟨400, none, none⟩, st, [])
  | some fromTs =>
    match parse toStr with
    | none => (⟨400, none, none⟩, st, [])
    | some toTs =>
      match GetAnalytics st fromTs toTs with
      | .error _ => (⟨500, none, none⟩, st, [.analytics fromTs toTs])
      | .ok a => (⟨200, none, some a⟩, st, [.analytics fromTs toTs])

/-- States reachable through the store: every stored id is below the
`SERIAL` sequence value, so a fresh id never collides. -/
def wf (st : SalesTable) : Prop := ∀ r ∈ st.rows, r.id < st.nextId

/-- A sale the schema admits and stores unchanged: allowed kind, positive
amount already at `DECIMAL(10,2)` scale and within its range, category within
`VARCHAR(255)`. -/
def validSale (s : Sale) : Prop :=
  (s.type = "income" ∨ s.type = "expense") ∧ 0 < s.amount ∧
    round2 s.amount = s.amount ∧ s.amount ≤ 99999999.99 ∧
    s.category.length ≤ 255

/-- An entry of the ten-value statistical scenario (spec §8 and the test
`analytics statistical calculations`): amount `a` on day `d`. -/
def statSale (i : Int) (a : ℚ) (d : Timestamp) : Sale :=
  ⟨i, "income", a, d, "Statistical Test"⟩

/-- The table holding the ten entries with amounts 10,20,…,100 on days
1,…,10, as created by the scenario. -/
def tenEntryTable : SalesTable :=
  ⟨11, [statSale 1 10 1, statSale 2 20 2, statSale 3 30 3, statSale 4 40 4,
        statSale 5 50 5, statSale 6 60 6, statSale 7 70 7, statSale 8 80 8,
        statSale 9 90 9, statSale 10 100 10]⟩

end SalesTracker

deriving instance DecidableEq for Except

namespace SalesTracker

section StoreTheorems

attribute [local semireducible] Rat.add Rat.mul Rat.inv Rat.ofScientific Rat.sub

lemma wf_empty (n : Int) : wf ⟨n, []⟩ := by intro r hr; cases hr

lemma wf_createSale {st st' : SalesTable} {s stored : Sale}
    (hwf : wf st) (h : CreateSale st s = .ok (st', stored)) : wf st' := by
  simp only [CreateSale] at h
  split at h
  · cases h
    intro r hr
    rcases List.mem_append.1 hr with h1 | h1
    · have hlt := hwf r h1
      show r.id < st.nextId + 1
      omega
    · rcases List.mem_singleton.1 h1 with rfl
      show st.nextId < st.nextId + 1
      omega
  · cases h

lemma wf_updateSale {st st' : SalesTable} {s : Sale}
    (hwf : wf st) (h : UpdateSale st s = .ok st') : wf st' := by
  simp only [UpdateSale] at h
  split at h
  · cases h
  · cases h
    intro r hr
    rcases List.mem_map.1 hr with ⟨r0, hr0, hmap⟩
    by_cases hc : r0.id = s.id
    · simp only [hc, if_pos rfl] at hmap
      subst hmap
      simpa using hc ▸ hwf r0 hr0
    · simp only [if_neg hc] at hmap
      exact hmap ▸ hwf r0 hr0

lemma wf_deleteSale {st st' : SalesTable} {i : Int}
    (hwf : wf st) (h : DeleteSale st i = .ok st') : wf st' := by
  cases h
  intro r hr
  exact hwf r (List.mem_of_mem_filter hr)

lemma updateSale_no_match {st : SalesTable} {s : Sale}
    (h : ∀ r ∈ st.rows, r.id ≠ s.id) : UpdateSale st s = .ok st := by
  unfold UpdateSale
  have hany : st.rows.any (fun r => r.id = s.id) = false := by
    simp only [List.any_eq_false, decide_eq_true_eq]
    exact h
  rw [hany]
  simp only [Bool.false_and, Bool.false_eq_true, if_false]
  have hmap : st.rows.map (fun r =>
      if r.id = s.id then (⟨r.id, s.type, round2 s.amount, s.date, s.category⟩ : Sale) else r) =
      st.rows := by
    have hcg := List.map_congr_left (l := st.rows)
      (f := fun r : Sale =>
        if r.id = s.id then (⟨r.id, s.type, round2 s.amount, s.date, s.category⟩ : Sale) else r)
      (g := id) (fun r hr => by simp [h r hr])
    rw [hcg, List.map_id]
  rw [hmap]

/-- Claim C5: `GetSales` returns all stored entries ordered by `date`
descending — every adjacent pair `(a, b)` of the result satisfies
`b.date ≤ a.date`, the result is a permutation of the stored rows, and the
empty table yields the empty list rather than an error. -/
theorem getSales_sorted_desc (st : SalesTable) :
    List.Chain' (fun a b => b.date ≤ a.date) (GetSales st) ∧
    (GetSales st).Perm st.rows ∧ ∀ n : Int, GetSales ⟨n, []⟩ = [] := by
  refine ⟨?_, List.perm_insertionSort dateDesc st.rows, fun n => rfl⟩
  exact (List.sorted_insertionSort dateDesc st.rows).chain'

/-- Claim C6: `UpdateSale` on an id matching no stored row reports no error
and returns the table with every stored entry unchanged. -/
theorem updateSale_missing_id_noop (st : SalesTable) (e : Sale)
    (h : ∀ r ∈ st.rows, r.id ≠ e.id) : UpdateSale st e = .ok st :=
  updateSale_no_match h

/-- Witness for C6 at a concrete table and a sale whose id matches no row. -/
theorem updateSale_missing_id_noop_witness :
    UpdateSale ⟨2, [⟨1, "income", 10, 0, "a"⟩]⟩ ⟨5, "expense", 3, 1, "b"⟩ =
      .ok ⟨2, [⟨1, "income", 10, 0, "a"⟩]⟩ :=
  updateSale_missing_id_noop ⟨2, [⟨1, "income", 10, 0, "a"⟩]⟩
    ⟨5, "expense", 3, 1, "b"⟩ (by decide)

/-- Claim C7: `DeleteSale` never reports an error — in particular not on a
non-existent id — and is idempotent: deleting the same id twice leaves the
same table as deleting it once. -/
theorem deleteSale_noerror_idempotent (st : SalesTable) (i : Int) :
    ∃ st', DeleteSale st i = .ok st' ∧ DeleteSale st' i = .ok st' := by
  refine ⟨_, rfl, ?_⟩
  unfold DeleteSale
  simp [List.filter_filter]

/-- Claim C4: for a valid entry `e`, `CreateSale` succeeds and `GetSales`
then yields a list containing an entry equal to `e` in every field except
the assigned id, and the assigned id is unique across all stored entries. -/
theorem createSale_then_list (st : SalesTable) (e : Sale)
    (hwf : wf st) (hv : validSale e) :
    ∃ st' stored,
      CreateSale st e = .ok (st', stored) ∧
      stored.type = e.type ∧ stored.amount = e.amount ∧
      stored.date = e.date ∧ stored.category = e.category ∧
      stored ∈ GetSales st' ∧
      (st'.rows.filter (fun r => r.id = stored.id)).length = 1 := by
  obtain ⟨hty, hpos, hr2, hle, hcat⟩ := hv
  have hchk : checkConstraints e.type (round2 e.amount) e.category = true := by
    rw [hr2]
    unfold checkConstraints
    have hty10 : e.type.length ≤ 10 := by
      rcases hty with h | h <;> rw [h] <;> decide
    have hty' : (decide (e.type = "income") || decide (e.type = "expense")) = true := by
      rcases hty with h | h <;> simp [h]
    simp [hty10, hty', hpos, hle, hcat]
  refine ⟨⟨st.nextId + 1, st.rows ++ [⟨st.nextId, e.type, round2 e.amount, e.date, e.category⟩]⟩,
          ⟨st.nextId, e.type, round2 e.amount, e.date, e.category⟩,
          ?_, rfl, hr2, rfl, rfl, ?_, ?_⟩
  · simp [CreateSale, hchk]
  · refine (List.Perm.mem_iff (List.perm_insertionSort dateDesc _)).2 ?_
    simp
  · rw [List.filter_append]
    have h1 : st.rows.filter
        (fun r => r.id = (⟨st.nextId, e.type, round2 e.amount, e.date, e.category⟩ : Sale).id) =
        [] := by
      refine List.filter_eq_nil_iff.2 fun r hr => ?_
      have := hwf r hr
      simp only [decide_eq_true_eq]
      intro hc
      rw [hc] at this
      exact absurd this (lt_irrefl _)
    rw [h1]
    simp

/-- Witness for C4 at the empty table and a concrete valid entry. -/
theorem createSale_then_list_witness :
    ∃ st' stored,
      CreateSale ⟨1, []⟩ ⟨0, "income", 10, 0, "x"⟩ = .ok (st', stored) ∧
      stored.type = "income" ∧ stored.amount = 10 ∧
      stored.date = 0 ∧ stored.category = "x" ∧
      stored ∈ GetSales st' ∧
      (st'.rows.filter (fun r => r.id = stored.id)).length = 1 :=
  createSale_then_list ⟨1, []⟩ ⟨0, "income", 10, 0, "x"⟩ (wf_empty 1)
    ⟨Or.inl rfl, by decide, by decide, by decide, by decide⟩

/-- Claim C3: the percentile aggregate interpolates continuously — over any
non-empty group, the p-th percentile sits at position `p * (N-1)` in the
sorted amounts and linearly interpolates between the two nearest values with
the fractional distance — and on the ten-entry scenario with amounts
10,…,100 inside the window, analytics are sum 550, count 10, average 55,
median 55, percentile90 91. -/
theorem analytics_continuous_interpolation :
    (∀ (p : ℚ) (l : List ℚ), 0 ≤ p → l ≠ [] →
      percentileCont p l =
        some ((l.insertionSort (· ≤ ·)).getD (⌊p * ((l.length : ℚ) - 1)⌋).toNat 0 +
          (p * ((l.length : ℚ) - 1) - ⌊p * ((l.length : ℚ) - 1)⌋) *
            ((l.insertionSort (· ≤ ·)).getD ((⌊p * ((l.length : ℚ) - 1)⌋).toNat + 1) 0 -
             (l.insertionSort (· ≤ ·)).getD (⌊p * ((l.length : ℚ) - 1)⌋).toNat 0))) ∧
    GetAnalytics tenEntryTable 0 100 = .ok ⟨550, 55, 10, 55, 91⟩ := by
  constructor
  · intro p l hp hl
    cases l with
    | nil => exact absurd rfl hl
    | cons a as =>
      simp only [percentileCont]
      have hlen : ((a :: as).length : ℚ) - 1 = (as.length : ℚ) := by
        push_cast [List.length_cons]
        ring
      have hrn : 0 ≤ p * (((a :: as).length : ℚ) - 1) := by
        rw [hlen]
        exact mul_nonneg hp (by positivity)
      set rn : ℚ := p * (((a :: as).length : ℚ) - 1) with hrndef
      have hfl : (0 : ℤ) ≤ ⌊rn⌋ := Int.floor_nonneg.2 hrn
      have hcl : (0 : ℤ) ≤ ⌈rn⌉ := Int.ceil_nonneg hrn
      have hflq : ((⌊rn⌋.toNat : ℕ) : ℚ) = ((⌊rn⌋ : ℤ) : ℚ) := by
        exact_mod_cast congrArg (fun z : ℤ => (z : ℚ)) (Int.toNat_of_nonneg hfl)
      by_cases hiq : ⌊rn⌋.toNat = ⌈rn⌉.toNat
      · have hieq : ⌊rn⌋ = ⌈rn⌉ := by omega
        have hrnfl : rn = (⌊rn⌋ : ℚ) := by
          refine le_antisymm ?_ (Int.floor_le rn)
          calc rn ≤ (⌈rn⌉ : ℚ) := Int.le_ceil rn
            _ = (⌊rn⌋ : ℚ) := by rw [hieq]
        rw [if_pos hiq]
        congr 1
        rw [sub_eq_zero.mpr hrnfl]
        ring
      · have hicl : ⌈rn⌉ = ⌊rn⌋ + 1 := by
          have h1 := Int.floor_le_ceil rn
          have h2 := Int.ceil_le_floor_add_one rn
          omega
        have hhi : ⌈rn⌉.toNat = ⌊rn⌋.toNat + 1 := by omega
        rw [if_neg hiq, hhi]
        congr 1
        push_cast [hflq]
        ring
  · decide

/-- Witness for C3's interpolation rule at `p = 1/2` over the two amounts
`[10, 20]`: position `0.5` between the two sorted values gives `15`. -/
theorem analytics_continuous_interpolation_witness :
    percentileCont (1/2) [(10 : ℚ), 20] = some 15 := by
  rw [analytics_continuous_interpolation.1 (1/2) [(10 : ℚ), 20] (by norm_num)
    (by simp)]
  decide

/-- Claim C2 as the code actually behaves: over an interval matching no
entries the two `PERCENTILE_CONT` columns are SQL `NULL`, the scan into
`float64` fails, and `GetAnalytics` reports an error instead of the
all-zero summary the spec (and the repository's own test
`analytics with no data`) promise. -/
theorem getAnalytics_empty_interval_errors (st : SalesTable)
    (fromTs toTs : Timestamp) (h : matchingAmounts st fromTs toTs = []) :
    ∃ msg, GetAnalytics st fromTs toTs = .error msg := by
  refine ⟨"storage.GetAnalytics: cannot scan NULL into float64", ?_⟩
  unfold GetAnalytics
  rw [h]
  rfl

/-- Witness for C2's divergence at the empty table with the test's window. -/
theorem getAnalytics_empty_interval_errors_witness :
    ∃ msg, GetAnalytics ⟨1, []⟩ 0 100 = .error msg :=
  getAnalytics_empty_interval_errors ⟨1, []⟩ 0 100 rfl

end StoreTheorems

section HandlerTheorems

attribute [local semireducible] Rat.add Rat.mul Rat.inv Rat.ofScientific Rat.sub

/-- Claim C1 as the code actually behaves: gin's binding validator enforces
only `binding:` struct tags and `models.Sale` carries its rules under
`validate:` tags that nothing ever evaluates, so a decoded body violating
the claimed rules still reaches the store: an empty category is inserted
and answered 201, and an invalid kind is attempted against the store and
answered 500 when the CHECK constraint rejects it — neither is the claimed
400 with no store write. -/
theorem createSale_handler_skips_validation :
    createSaleHandler ⟨1, []⟩ (some ⟨0, "income", 100, 5, ""⟩) =
      (⟨201, some ⟨1, "income", 100, 5, ""⟩, none⟩,
       ⟨2, [⟨1, "income", 100, 5, ""⟩]⟩, [.create ⟨1, "income", 100, 5, ""⟩]) ∧
    createSaleHandler ⟨1, []⟩ (some ⟨0, "donation", 100, 5, "food"⟩) =
      (⟨500, none, none⟩, ⟨1, []⟩, [.create ⟨0, "donation", 100, 5, "food"⟩]) := by
  constructor <;> decide

/-- Claim C8: in handler `updateSale` the path id overrides any id in the
request body before the store call, a successful store update is answered
200 echoing the updated entry, and a non-integer `{id}` is answered 400
with no store call and the table untouched. -/
theorem updateSale_handler_path_id_wins (st : SalesTable) (idParam : String)
    (b : Sale) :
    (atoi idParam = none →
      updateSaleHandler st idParam (some b) = (⟨400, none, none⟩, st, [])) ∧
    (∀ (i : Int) (st' : SalesTable), atoi idParam = some i →
      UpdateSale st { b with id := i } = .ok st' →
      updateSaleHandler st idParam (some b) =
        (⟨200, some { b with id := i }, none⟩, st', [.update { b with id := i }])) := by
  constructor
  · intro h
    simp [updateSaleHandler, h]
  · intro i st' h hupd
    simp [updateSaleHandler, h, hupd]

/-- Witness for C8: a non-numeric id gives 400 with no store call; a numeric
id is written into the entry before the store update and echoed back. -/
theorem updateSale_handler_path_id_wins_witness :
    updateSaleHandler ⟨1, []⟩ "abc" (some ⟨3, "income", 10, 0, "x"⟩) =
      (⟨400, none, none⟩, ⟨1, []⟩, []) ∧
    updateSaleHandler ⟨1, []⟩ "7" (some ⟨3, "income", 10, 0, "x"⟩) =
      (⟨200, some ⟨7, "income", 10, 0, "x"⟩, none⟩, ⟨1, []⟩,
       [.update ⟨7, "income", 10, 0, "x"⟩]) :=
  ⟨(updateSale_handler_path_id_wins ⟨1, []⟩ "abc" ⟨3, "income", 10, 0, "x"⟩).1
      (by decide),
   (updateSale_handler_path_id_wins ⟨1, []⟩ "7" ⟨3, "income", 10, 0, "x"⟩).2 7
      ⟨1, []⟩ (by decide) (by decide)⟩

/-- Claim C10: a well-formed PUT whose path id matches no stored row is
answered 200 echoing the request entry (path id plus body fields) although
the store holds no such entry; the table is returned unchanged and the
success body is built from the request alone, never from store contents. -/
theorem updateSale_handler_echoes_request (st : SalesTable) (idParam : String)
    (b : Sale) (i : Int) (hid : atoi idParam = some i)
    (hmiss : ∀ r ∈ st.rows, r.id ≠ i) :
    updateSaleHandler st idParam (some b) =
      (⟨200, some ⟨i, b.type, b.amount, b.date, b.category⟩, none⟩, st,
       [.update ⟨i, b.type, b.amount, b.date, b.category⟩]) := by
  have hupd : UpdateSale st ⟨i, b.type, b.amount, b.date, b.category⟩ = .ok st :=
    updateSale_no_match (fun r hr => hmiss r hr)
  simp [updateSaleHandler, hid, hupd]

/-- Witness for C10: updating id 7 against a table that only stores id 1
answers 200 with the request's fields under id 7 and leaves the table as it
was. -/
theorem updateSale_handler_echoes_request_witness :
    updateSaleHandler ⟨5, [⟨1, "income", 10, 0, "a"⟩]⟩ "7"
        (some ⟨3, "expense", 2, 9, "b"⟩) =
      (⟨200, some ⟨7, "expense", 2, 9, "b"⟩, none⟩,
       ⟨5, [⟨1, "income", 10, 0, "a"⟩]⟩, [.update ⟨7, "expense", 2, 9, "b"⟩]) :=
  updateSale_handler_echoes_request ⟨5, [⟨1, "income", 10, 0, "a"⟩]⟩ "7"
    ⟨3, "expense", 2, 9, "b"⟩ 7 (by decide) (by decide)

/-- Claim C9: handler `getAnalytics` answers 400 and performs no store query
when `from` or `to` (the empty string when the parameter is missing) fails
to parse as RFC3339, and when both parse it queries the store with exactly
the two parsed timestamps. -/
theorem getAnalytics_handler_parse_gate (parse : String → Option Timestamp)
    (st : SalesTable) (fromStr toStr : String) :
    (parse fromStr = none ∨ parse toStr = none →
      getAnalyticsHandler parse st fromStr toStr = (⟨400, none, none⟩, st, [])) ∧
    (∀ f t : Timestamp, parse fromStr = some f → parse toStr = some t →
      (getAnalyticsHandler parse st fromStr toStr).2.2 = [.analytics f t]) := by
  constructor
  · rintro (h | h)
    · simp [getAnalyticsHandler, h]
    · cases hf : parse fromStr with
      | none => simp [getAnalyticsHandler, hf]
      | some f => simp [getAnalyticsHandler, hf, h]
  · intro f t hf ht
    cases hga : GetAnalytics st f t with
    | error e => simp [getAnalyticsHandler, hf, ht, hga]
    | ok a => simp [getAnalyticsHandler, hf, ht, hga]

/-- Witness for C9 with an RFC3339 stub accepting one timestamp string: a
missing (empty) `from` gives 400 and no store call; two parseable
parameters give a store query with exactly the parsed values. -/
theorem getAnalytics_handler_parse_gate_witness :
    getAnalyticsHandler (fun s => if s = "2024-01-01T00:00:00Z" then some 0 else none)
        ⟨1, []⟩ "" "2024-01-01T00:00:00Z" = (⟨400, none, none⟩, ⟨1, []⟩, []) ∧
    (getAnalyticsHandler (fun s => if s = "2024-01-01T00:00:00Z" then some 0 else none)
        ⟨1, []⟩ "2024-01-01T00:00:00Z" "2024-01-01T00:00:00Z").2.2 =
      [.analytics 0 0] :=
  ⟨(getAnalytics_handler_parse_gate
      (fun s => if s = "2024-01-01T00:00:00Z" then some 0 else none)
      ⟨1, []⟩ "" "2024-01-01T00:00:00Z").1 (Or.inl (by decide)),
   (getAnalytics_handler_parse_gate
      (fun s => if s = "2024-01-01T00:00:00Z" then some 0 else none)
      ⟨1, []⟩ "2024-01-01T00:00:00Z" "2024-01-01T00:00:00Z").2 0 0
      (by decide) (by decide)⟩

end HandlerTheorems

end SalesTracker
